import Mathlib

/-!
Shallow embedding of the MLInference request-coalescing pipeline.

The definitions below translate, function by function, the parts of the
repository that the verified properties are about:

- `app/inference/batcher.py` : `InferenceBatcher` (intake queue, batch
  growth loop, dispatch, shutdown flush), the `_BatchItem` record, and
  `OverloadedError`.
- `app/inference/predictor.py` : `Predictor.predict`.
- `app/middleware/backpressure.py` : `BackpressureMiddleware.dispatch`.
- `app/middleware/timeout.py` : `TimeoutMiddleware.dispatch`.
- `app/api/routes.py` : the error-to-status mapping of the `predict`
  handler.
- `app/metrics/prometheus.py` : the metric registry, modelled as explicit
  state (histograms keep the list of observed samples, gauges and
  counters keep their current value).

Python floats are modelled as rationals; asyncio futures are modelled as
an explicit one-shot `FutureState` carried by each batch item; the time-
and scheduler-dependent parts (the bounded `wait_for` in the growth loop,
the point at which `Task.cancel` delivers `CancelledError`) are modelled
by explicit event traces and suspension points, so that every behaviour
of the code corresponds to a choice of trace.
-/

namespace MLInference

/-- Python exception values that flow through the pipeline.
`overloadedError` is `OverloadedError` from `app/inference/batcher.py`,
`valueError` is the `ValueError` raised by `Predictor.predict`,
`modelError` stands for any exception the underlying model raises, and
`cancelledError` is `asyncio.CancelledError`. -/
inductive PyErr where
  | valueError (msg : String)
  | modelError (msg : String)
  | overloadedError (msg : String)
  | runtimeError (msg : String)
  | cancelledError
deriving DecidableEq, Repr

/-- The state of an `asyncio.Future`: not yet settled, settled with a
result (`set_result`), settled with an exception (`set_exception`), or
cancelled (`Future.cancel`, which happens when the task awaiting the
future is itself cancelled). -/
inductive FutureState where
  | pending
  | result (score : ℚ)
  | error (e : PyErr)
  | cancelled
deriving DecidableEq, Repr

/-- `Future.done()` is true for every settled or cancelled future. -/
def FutureState.done : FutureState → Bool
  | .pending => false
  | _ => true

/-- `_BatchItem` from `app/inference/batcher.py`: the features row, the
one-shot completion handle, and the enqueue timestamp. The future is
carried by value; settling a handle is modelled by replacing this field. -/
structure BatchItem where
  features : List ℚ
  future : FutureState
  enqueueTime : ℚ
deriving DecidableEq, Repr

/-- The process-wide metric registry of `app/metrics/prometheus.py`.
Histograms record the list of observed samples, the gauge and the
counters record their current value. -/
structure Metrics where
  batchSizeObs : List Nat
  batchLatencyObs : List ℚ
  queueDepth : Nat
  queueRejections : Nat
  requestTimeouts : Nat
deriving DecidableEq, Repr

/-- The mutable state of an `InferenceBatcher`: configuration, the
bounded FIFO intake queue (front of the list = oldest item), and the
running flag. The metric registry is passed separately since it is
process-wide. -/
structure BatcherState where
  maxBatchSize : Nat
  queueMaxSize : Nat
  queue : List BatchItem
  running : Bool
deriving DecidableEq, Repr

/-- `InferenceBatcher.queue_size`. -/
def BatcherState.queue_size (b : BatcherState) : Nat := b.queue.length

/-- `asyncio.Queue` treats `maxsize <= 0` as an unbounded queue:
`put_nowait` raises `QueueFull` only when the queue is bounded and the
occupancy has reached `maxsize`. -/
def queueFull (maxsize occupancy : Nat) : Bool :=
  decide (0 < maxsize ∧ maxsize ≤ occupancy)

/-- The three ways `InferenceBatcher.enqueue` can leave its caller:
`notStarted` is the `RuntimeError` raised when the batcher is not
running, `overloaded` is the `OverloadedError` raised on `QueueFull`,
and `accepted` means the item was placed on the queue and the caller
proceeds to await its future. -/
inductive EnqueueOutcome where
  | notStarted
  | overloaded
  | accepted
deriving DecidableEq, Repr

/-- `InferenceBatcher.enqueue` (batcher.py lines 70-85): raise
`RuntimeError` if not running; otherwise create a pending item and
`put_nowait` it. On success set the depth gauge to the new occupancy;
on `QueueFull` increment `QUEUE_REJECTIONS` and raise `OverloadedError`
leaving the queue untouched. -/
def BatcherState.enqueue (b : BatcherState) (m : Metrics)
    (features : List ℚ) (now : ℚ) : EnqueueOutcome × BatcherState × Metrics :=
  if ¬ b.running then (.notStarted, b, m)
  else
    let item : BatchItem := ⟨features, .pending, now⟩
    if queueFull b.queueMaxSize b.queue.length then
      (.overloaded, b, { m with queueRejections := m.queueRejections + 1 })
    else
      let q := b.queue ++ [item]
      (.accepted, { b with queue := q }, { m with queueDepth := q.length })

/-- One scheduler event observed by the growth loop of `_batch_loop`
while it waits on `asyncio.wait_for(self._queue.get(), timeout=remaining)`:
either the queue yields its oldest item (`got`), the bounded wait times
out (`timedOut`), or the window budget was already exhausted when the
loop recomputed `remaining` (`windowElapsed`). -/
inductive GrowEvent where
  | got
  | timedOut
  | windowElapsed
deriving DecidableEq, Repr

/-- The growth loop of `_batch_loop` (batcher.py lines 92-101), driven
by an event trace: while the batch is smaller than `maxBatchSize`, a
`got` event appends the oldest queued item to the batch, and a
`timedOut` or `windowElapsed` event breaks out of the loop. `queue`
lists, in FIFO enqueue order, the items the intake queue will yield.
Returns the grown batch and the remaining queue. -/
def growBatch (maxBatchSize : Nat) (batch queue : List BatchItem) :
    List GrowEvent → List BatchItem × List BatchItem
  | [] => (batch, queue)
  | e :: rest =>
    if batch.length < maxBatchSize then
      match e, queue with
      | .got, item :: q => growBatch maxBatchSize (batch ++ [item]) q rest
      | _, _ => (batch, queue)
    else (batch, queue)

/-- One iteration of `_batch_loop` up to the dispatch: take the anchor
item from the queue, then grow the batch under the window. -/
def assembleBatch (maxBatchSize : Nat) (anchor : BatchItem)
    (queue : List BatchItem) (events : List GrowEvent) :
    List BatchItem × List BatchItem :=
  growBatch maxBatchSize [anchor] queue events

/-- The success fan-out of `_execute_batch` (batcher.py lines 128-130):
`for value, item in zip(predictions, batch)` settles each item whose
future is not yet done with the corresponding score. `zip` stops at the
shorter sequence, so items beyond the length of `predictions` are left
untouched; the trailing `++ batch.drop predictions.length` keeps those
items in the returned post-state. -/
def setResults (predictions : List ℚ) (batch : List BatchItem) : List BatchItem :=
  List.zipWith
    (fun v item =>
      if item.future.done then item else { item with future := .result v })
    predictions batch
  ++ batch.drop predictions.length

/-- The failure fan-out of `_execute_batch` (batcher.py lines 120-123):
every item whose future is not yet done receives the same exception. -/
def setException (e : PyErr) (batch : List BatchItem) : List BatchItem :=
  batch.map
    (fun item =>
      if item.future.done then item else { item with future := .error e })

/-- `InferenceBatcher._execute_batch` (batcher.py lines 108-132) on a
predictor modelled as a function from the stacked feature matrix to
either a prediction vector or a raised exception. `inferenceLatency` is
the measured wall time of the model call. Returns the post-settlement
state of the batch items together with the updated batcher state and
metrics: record the batch size, run the predictor, fan the results or
the exception out, and refresh the depth gauge. -/
def executeBatch (predict : List (List ℚ) → Except PyErr (List ℚ))
    (inferenceLatency : ℚ) (batch : List BatchItem)
    (b : BatcherState) (m : Metrics) :
    List BatchItem × BatcherState × Metrics :=
  if batch.isEmpty then (batch, b, m)
  else
    let m1 := { m with batchSizeObs := m.batchSizeObs ++ [batch.length] }
    match predict (batch.map (·.features)) with
    | .error exc =>
        (setException exc batch, b, { m1 with queueDepth := b.queue.length })
    | .ok predictions =>
        let m2 := { m1 with
          batchLatencyObs := m1.batchLatencyObs ++ [inferenceLatency] }
        (setResults predictions batch, b,
         { m2 with queueDepth := b.queue.length })

/-- One drain step of `_flush_queue_with_cancellation` (batcher.py lines
139-141): a drained item whose future is not yet done receives a
`CancelledError` via `set_exception`. -/
def cancelItem (item : BatchItem) : BatchItem :=
  if item.future.done then item
  else { item with future := .error .cancelledError }

/-- `InferenceBatcher._flush_queue_with_cancellation` (batcher.py lines
134-142): drain every queued item, settle each pending handle with a
cancellation error, and refresh the depth gauge. Returns the drained
items in their post-settlement state. -/
def flushQueueWithCancellation (b : BatcherState) (m : Metrics) :
    List BatchItem × BatcherState × Metrics :=
  (b.queue.map cancelItem, { b with queue := [] }, { m with queueDepth := 0 })

/-- The suspension points of the assembler task at which `Task.cancel`
can deliver `CancelledError`, together with the in-flight batch items
the task holds there: `anchorGet` is `await self._queue.get()` (no batch
held), `growthWait` is the bounded `await asyncio.wait_for(...)` of the
growth loop, and `predictorWait` is `await asyncio.to_thread(...)` in
`_execute_batch`. -/
inductive SuspensionPoint where
  | anchorGet
  | growthWait (batch : List BatchItem)
  | predictorWait (batch : List BatchItem)
deriving DecidableEq, Repr

/-- What happens to the in-flight batch when `CancelledError` is raised
at a suspension point of `_batch_loop`: `asyncio.CancelledError` derives
from `BaseException`, so the `except Exception` of `_execute_batch`
(batcher.py line 116) does not catch it; it propagates to the
`except asyncio.CancelledError: pass` of `_batch_loop` (batcher.py line
104) and the task returns with the held batch items dropped, their
futures left exactly as they were. -/
def batchLoopCancel : SuspensionPoint → List BatchItem
  | .anchorGet => []
  | .growthWait batch => batch
  | .predictorWait batch => batch

/-- `InferenceBatcher.stop` (batcher.py lines 58-68): if not running, do
nothing; otherwise clear the running flag, cancel the assembler task
(which abandons the items `batchLoopCancel` yields at the suspension
point where the cancellation lands), await it, and flush the queue with
cancellation. Returns the new state and metrics, the batch items the
cancelled task abandoned, and the drained queue items in their
post-settlement state. -/
def BatcherState.stop (b : BatcherState) (m : Metrics) (sp : SuspensionPoint) :
    BatcherState × Metrics × List BatchItem × List BatchItem :=
  if ¬ b.running then (b, m, [], [])
  else
    let abandoned := batchLoopCancel sp
    let b1 := { b with running := false }
    let (drained, b2, m2) := flushQueueWithCancellation b1 m
    (b2, m2, abandoned, drained)

/-- A numpy `ndarray`, kept as its shape and its row-major flattened
data. `ndim` is the length of the shape. -/
structure NDArray where
  shape : List Nat
  data : List ℚ
deriving DecidableEq, Repr

/-- `ndarray.ndim`. -/
def NDArray.ndim (a : NDArray) : Nat := a.shape.length

/-- `probabilities[:, 1]` on a two-dimensional array stored row-major:
for each row `i` of an array of shape `(n, k)`, the element at flat
index `i * k + 1`. -/
def column1 (a : NDArray) : List ℚ :=
  (List.range (a.shape.headD 0)).map
    (fun i => a.data.getD (i * a.shape.getD 1 0 + 1) 0)

/-- `Predictor.predict` (predictor.py lines 14-18): raise `ValueError`
unless the input is two-dimensional, then call the underlying model and
return its positive-class column. The model (`predict_proba`) is an
opaque parameter. -/
def Predictor.predict (model : NDArray → NDArray) (batch_inputs : NDArray) :
    Except PyErr (List ℚ) :=
  if batch_inputs.ndim ≠ 2 then
    .error (.valueError "Inputs must be shaped (batch, features)")
  else
    .ok (column1 (model batch_inputs))

/-- The JSON bodies the service produces: `JSONResponse` with a
`detail` field, the `predict` success body, the health body, and the
framework-generated body of an unhandled-exception 500. -/
inductive RespBody where
  | jsonDetail (detail : String)
  | jsonPred (pred : ℚ)
  | jsonHealth
  | internalError
deriving DecidableEq, Repr

/-- An HTTP response: status code and JSON body. -/
structure Response where
  status : Nat
  body : RespBody
deriving DecidableEq, Repr

/-- The part of an incoming request the middlewares inspect. -/
structure Request where
  path : String
deriving DecidableEq, Repr

/-- The process state the middlewares can reach: `app.state.batcher`
(absent before startup) and the metric registry. -/
structure Sys where
  batcher : Option BatcherState
  metrics : Metrics
deriving DecidableEq, Repr

/-- `BackpressureMiddleware.dispatch` (backpressure.py lines 28-53):
non-`/predict` paths pass straight through, as does `/predict` when no
batcher is installed; otherwise, when the observed queue occupancy has
reached the high watermark, increment `QUEUE_REJECTIONS` and answer 503
without calling downstream, else pass through. `callNext` is the
downstream handler. -/
def BackpressureMiddleware.dispatch (highWatermark : Nat) (req : Request)
    (callNext : Request → Sys → Response × Sys) (s : Sys) : Response × Sys :=
  if req.path ≠ "/predict" then callNext req s
  else
    match s.batcher with
    | none => callNext req s
    | some b =>
      if highWatermark ≤ b.queue_size then
        (⟨503, .jsonDetail "Server overloaded"⟩,
         { s with metrics :=
            { s.metrics with queueRejections := s.metrics.queueRejections + 1 } })
      else callNext req s

/-- `TimeoutMiddleware.dispatch` (timeout.py lines 20-32):
`asyncio.wait_for` the downstream handler under the budget. If the
downstream work (taking `downstreamDuration` of wall time) completes
within the budget its response is returned; otherwise the downstream
work is cancelled, `REQUEST_TIMEOUTS` is incremented, and the response
is 504. -/
def TimeoutMiddleware.dispatch (timeoutSeconds : ℚ)
    (downstream : Sys → Response × Sys) (downstreamDuration : ℚ)
    (s : Sys) : Response × Sys :=
  if downstreamDuration ≤ timeoutSeconds then downstream s
  else
    (⟨504, .jsonDetail "Request timed out"⟩,
     { s with metrics :=
        { s.metrics with requestTimeouts := s.metrics.requestTimeouts + 1 } })

/-- Awaiting a settled future: a result future yields its score, an
exception future raises its exception, a cancelled future raises
`CancelledError`; a pending future does not resolve (`none`). -/
def awaitSettled : FutureState → Option (Except PyErr ℚ)
  | .pending => none
  | .result v => some (.ok v)
  | .error e => some (.error e)
  | .cancelled => some (.error .cancelledError)

/-- The error-to-status mapping of the `predict` handler
(routes.py lines 32-53 plus framework behaviour): a score maps to 200
with a `pred` body; `OverloadedError` is caught and mapped to 503 with
detail "Server overloaded"; any other exception escapes the handler and
the framework answers 500. -/
def predictResponse : Except PyErr ℚ → Response
  | .ok v => ⟨200, .jsonPred v⟩
  | .error (.overloadedError _) => ⟨503, .jsonDetail "Server overloaded"⟩
  | .error _ => ⟨500, .internalError⟩

/-- What happens to the completion handle of a `/predict` task that the
deadline middleware cancels while the task awaits its future: asyncio
cancels the future the task is suspended on, so a pending handle becomes
cancelled (hence done); an already settled handle is unaffected. -/
def abandonItem (item : BatchItem) : BatchItem :=
  if item.future.done then item else { item with future := .cancelled }

lemma setResults_nil_left (batch : List BatchItem) :
    setResults [] batch = batch := by
  simp [setResults]

lemma setResults_nil_right (preds : List ℚ) :
    setResults preds [] = [] := by
  simp [setResults]

lemma setResults_cons (p : ℚ) (ps : List ℚ) (b : BatchItem)
    (bs : List BatchItem) :
    setResults (p :: ps) (b :: bs) =
      (if b.future.done then b else { b with future := .result p })
        :: setResults ps bs := by
  simp [setResults]

/-- Positional description of the success fan-out when the prediction
vector and the batch have equal length. -/
lemma setResults_getD (preds : List ℚ) (batch : List BatchItem)
    (hlen : preds.length = batch.length) (i : Nat) (hi : i < batch.length)
    (d : BatchItem) :
    (setResults preds batch).getD i d =
      (if (batch.getD i d).future.done then batch.getD i d
       else { batch.getD i d with future := .result (preds.getD i 0) }) := by
  induction batch generalizing preds i with
  | nil => simp at hi
  | cons b bs ih =>
    cases preds with
    | nil => simp at hlen
    | cons p ps =>
      rw [setResults_cons]
      cases i with
      | zero => simp
      | succ j =>
        simp only [List.getD_cons_succ]
        exact ih ps (by simpa using hlen) j (by simpa using hi)

/-- A handle that is already done is never touched by the success
fan-out, whatever the prediction vector. -/
lemma setResults_getD_done (preds : List ℚ) (batch : List BatchItem)
    (i : Nat) (d : BatchItem)
    (hdone : (batch.getD i d).future.done = true) :
    (setResults preds batch).getD i d = batch.getD i d := by
  induction batch generalizing preds i with
  | nil => simp [setResults_nil_right]
  | cons b bs ih =>
    cases preds with
    | nil => rw [setResults_nil_left]
    | cons p ps =>
      rw [setResults_cons]
      cases i with
      | zero => simp_all
      | succ j =>
        simp only [List.getD_cons_succ] at hdone ⊢
        exact ih ps j hdone

/-- Positional description of the failure fan-out. -/
lemma setException_getD (e : PyErr) (batch : List BatchItem) (i : Nat)
    (d : BatchItem) :
    (setException e batch).getD i d =
      (if i < batch.length then
        (if (batch.getD i d).future.done then batch.getD i d
         else { batch.getD i d with future := .error e })
       else d) := by
  induction batch generalizing i with
  | nil => simp [setException]
  | cons b bs ih =>
    cases i with
    | zero => simp [setException]
    | succ j =>
      simp only [setException, List.map_cons, List.getD_cons_succ,
        List.length_cons] at *
      rw [ih j]
      simp [Nat.add_lt_add_iff_right]

/-- A handle that is already done is never touched by the failure
fan-out. -/
lemma setException_getD_done (e : PyErr) (batch : List BatchItem) (i : Nat)
    (d : BatchItem)
    (hdone : (batch.getD i d).future.done = true) :
    (setException e batch).getD i d = batch.getD i d := by
  rw [setException_getD]
  by_cases hin : i < batch.length
  · rw [if_pos hin, if_pos hdone]
  · rw [if_neg hin, List.getD_eq_default _ _ (by omega)]

/-- The growth loop takes items from the front of the queue in order:
the grown batch is the starting batch followed by a prefix of the
queue, and the remaining queue is the matching suffix. -/
lemma growBatch_spec (M : Nat) :
    ∀ (events : List GrowEvent) (batch queue : List BatchItem),
      ∃ k, (growBatch M batch queue events).1 = batch ++ queue.take k ∧
           (growBatch M batch queue events).2 = queue.drop k
  | [], batch, queue => ⟨0, by simp [growBatch]⟩
  | e :: rest, batch, queue => by
    by_cases h : batch.length < M
    · cases e with
      | got =>
        cases queue with
        | nil => exact ⟨0, by simp [growBatch, h]⟩
        | cons item q =>
          obtain ⟨k, h1, h2⟩ := growBatch_spec M rest (batch ++ [item]) q
          refine ⟨k + 1, ?_, ?_⟩
          · simp [growBatch, h, h1, List.take_succ_cons]
          · simp [growBatch, h, h2, List.drop_succ_cons]
      | timedOut => exact ⟨0, by simp [growBatch, h]⟩
      | windowElapsed => exact ⟨0, by simp [growBatch, h]⟩
    · refine ⟨0, ?_⟩
      cases queue <;> cases e <;> simp [growBatch, h]

/-- The growth loop never appends beyond the size cap. -/
lemma growBatch_length_le (M : Nat) :
    ∀ (events : List GrowEvent) (batch queue : List BatchItem),
      batch.length ≤ M →
      ((growBatch M batch queue events).1).length ≤ M
  | [], batch, queue, hle => by simpa [growBatch] using hle
  | e :: rest, batch, queue, hle => by
    by_cases h : batch.length < M
    · cases e with
      | got =>
        cases queue with
        | nil => simpa [growBatch, h] using hle
        | cons item q =>
          have := growBatch_length_le M rest (batch ++ [item]) q
            (by simp; omega)
          simpa [growBatch, h] using this
      | timedOut => simpa [growBatch, h] using hle
      | windowElapsed => simpa [growBatch, h] using hle
    · cases queue <;> cases e <;> simpa [growBatch, h] using hle

/-- The batch-size sample recorded by a dispatch of a nonempty batch. -/
lemma executeBatch_batchSizeObs
    (predict : List (List ℚ) → Except PyErr (List ℚ)) (lat : ℚ)
    (batch : List BatchItem) (b : BatcherState) (m : Metrics)
    (hne : batch ≠ []) :
    (executeBatch predict lat batch b m).2.2.batchSizeObs =
      m.batchSizeObs ++ [batch.length] := by
  cases hp : predict (batch.map (·.features)) with
  | error e => simp [executeBatch, List.isEmpty_iff, hne, hp]
  | ok preds => simp [executeBatch, List.isEmpty_iff, hne, hp]

/-- C1: On a successful dispatch, `_execute_batch` delivers score `i` of
the prediction vector to the completion handle of batch item `i`
(positional correspondence in batch order), skipping any item whose
handle was already settled and leaving that handle unchanged; and batch
order matches enqueue order, the assembled batch being the anchor
followed by a prefix of the FIFO queue. -/
theorem execute_batch_delivers_scores_positionally
    (predict : List (List ℚ) → Except PyErr (List ℚ)) (lat : ℚ)
    (batch : List BatchItem) (b : BatcherState) (m : Metrics)
    (predictions : List ℚ)
    (hok : predict (batch.map (·.features)) = .ok predictions)
    (hlen : predictions.length = batch.length)
    (i : Nat) (hi : i < batch.length) (d : BatchItem)
    (M : Nat) (anchor : BatchItem) (queue : List BatchItem)
    (events : List GrowEvent) :
    (executeBatch predict lat batch b m).1.getD i d =
      (if (batch.getD i d).future.done then batch.getD i d
       else { batch.getD i d with
                future := .result (predictions.getD i 0) }) ∧
    ∃ k, (assembleBatch M anchor queue events).1 = anchor :: queue.take k := by
  have hne : batch ≠ [] := by
    intro hb; rw [hb] at hi; simp at hi
  constructor
  · have hrw : (executeBatch predict lat batch b m).1 =
        setResults predictions batch := by
      simp [executeBatch, List.isEmpty_iff, hne, hok]
    rw [hrw]
    exact setResults_getD predictions batch hlen i hi d
  · obtain ⟨k, h1, _⟩ := growBatch_spec M events [anchor] queue
    exact ⟨k, by simpa [assembleBatch] using h1⟩

theorem execute_batch_delivers_scores_positionally_witness :
    (executeBatch (fun _ => .ok [(1:ℚ)/4, 3/4]) 1
        [⟨[(1:ℚ)/2], .pending, 0⟩, ⟨[(1:ℚ)/3], .result 9, 1⟩]
        ⟨4, 10, [], true⟩ ⟨[], [], 0, 0, 0⟩).1.getD 0 ⟨[], .pending, 0⟩ =
      ⟨[(1:ℚ)/2], .result ((1:ℚ)/4), 0⟩ ∧
    ∃ k, (assembleBatch 4 ⟨[(5:ℚ)], .pending, 0⟩ [] []).1 =
      ⟨[(5:ℚ)], .pending, 0⟩ :: List.take k ([] : List BatchItem) := by
  have h := execute_batch_delivers_scores_positionally
    (fun _ => .ok [(1:ℚ)/4, 3/4]) 1
    [⟨[(1:ℚ)/2], .pending, 0⟩, ⟨[(1:ℚ)/3], .result 9, 1⟩]
    ⟨4, 10, [], true⟩ ⟨[], [], 0, 0, 0⟩ [(1:ℚ)/4, 3/4] rfl rfl 0
    (by norm_num) ⟨[], .pending, 0⟩ 4 ⟨[(5:ℚ)], .pending, 0⟩ [] []
  refine ⟨?_, h.2⟩
  rw [h.1]
  simp [FutureState.done]

/-- C2: With a positive size cap M, every batch the growth loop
assembles has between 1 and M items, and dispatching it records exactly
its size as a BATCH_SIZE histogram sample, so every recorded sample
lies in the interval from 1 to M. -/
theorem dispatched_batch_size_in_range
    (M : Nat) (hM : 1 ≤ M) (anchor : BatchItem) (queue : List BatchItem)
    (events : List GrowEvent)
    (predict : List (List ℚ) → Except PyErr (List ℚ)) (lat : ℚ)
    (b : BatcherState) (m : Metrics) :
    1 ≤ (assembleBatch M anchor queue events).1.length ∧
    (assembleBatch M anchor queue events).1.length ≤ M ∧
    (executeBatch predict lat (assembleBatch M anchor queue events).1 b
        m).2.2.batchSizeObs =
      m.batchSizeObs ++ [(assembleBatch M anchor queue events).1.length] := by
  obtain ⟨k, h1, _⟩ := growBatch_spec M events [anchor] queue
  have hpos : 1 ≤ (assembleBatch M anchor queue events).1.length := by
    simp only [assembleBatch]
    rw [h1]
    simp
  refine ⟨hpos, ?_, ?_⟩
  · exact growBatch_length_le M events [anchor] queue (by simpa using hM)
  · apply executeBatch_batchSizeObs
    intro hnil
    rw [hnil] at hpos
    simp at hpos

theorem dispatched_batch_size_in_range_witness :
    1 ≤ (assembleBatch 2 ⟨[(1:ℚ)], .pending, 0⟩ [⟨[(2:ℚ)], .pending, 0⟩]
          [.got]).1.length ∧
    (assembleBatch 2 ⟨[(1:ℚ)], .pending, 0⟩ [⟨[(2:ℚ)], .pending, 0⟩]
        [.got]).1.length ≤ 2 ∧
    (executeBatch (fun _ => .ok [(1:ℚ)/2, 1/2]) 0
        (assembleBatch 2 ⟨[(1:ℚ)], .pending, 0⟩ [⟨[(2:ℚ)], .pending, 0⟩]
          [.got]).1
        ⟨2, 10, [], true⟩ ⟨[], [], 0, 0, 0⟩).2.2.batchSizeObs =
      ([] : List Nat) ++
        [(assembleBatch 2 ⟨[(1:ℚ)], .pending, 0⟩ [⟨[(2:ℚ)], .pending, 0⟩]
          [.got]).1.length] :=
  dispatched_batch_size_in_range 2 (by norm_num) ⟨[(1:ℚ)], .pending, 0⟩
    [⟨[(2:ℚ)], .pending, 0⟩] [.got] (fun _ => .ok [(1:ℚ)/2, 1/2]) 0
    ⟨2, 10, [], true⟩ ⟨[], [], 0, 0, 0⟩

/-- C3: For every /predict request with a batcher installed, if the
observed queue occupancy is at least the high watermark the middleware
answers 503 with detail "Server overloaded", increments
QUEUE_REJECTIONS, leaves the queue untouched, and never invokes the
downstream handler (the result does not mention `callNext`); below the
watermark, and on every other path, the request passes through to the
downstream handler on the unchanged state. -/
theorem backpressure_admission_spec
    (H : Nat) (req : Request) (callNext : Request → Sys → Response × Sys)
    (s : Sys) (b : BatcherState) (hb : s.batcher = some b) :
    (req.path = "/predict" → H ≤ b.queue_size →
      BackpressureMiddleware.dispatch H req callNext s =
        (⟨503, .jsonDetail "Server overloaded"⟩,
         { s with metrics :=
            { s.metrics with
                queueRejections := s.metrics.queueRejections + 1 } }) ∧
      (BackpressureMiddleware.dispatch H req callNext s).2.batcher =
        s.batcher) ∧
    (req.path = "/predict" → b.queue_size < H →
      BackpressureMiddleware.dispatch H req callNext s = callNext req s) ∧
    (req.path ≠ "/predict" →
      BackpressureMiddleware.dispatch H req callNext s = callNext req s) := by
  refine ⟨fun hp hw => ?_, fun hp hw => ?_, fun hp => ?_⟩
  · have heq : BackpressureMiddleware.dispatch H req callNext s =
        (⟨503, .jsonDetail "Server overloaded"⟩,
         { s with metrics :=
            { s.metrics with
                queueRejections := s.metrics.queueRejections + 1 } }) := by
      simp [BackpressureMiddleware.dispatch, hp, hb, hw]
    exact ⟨heq, by rw [heq]⟩
  · simp [BackpressureMiddleware.dispatch, hp, hb, Nat.not_le.mpr hw]
  · simp [BackpressureMiddleware.dispatch, hp]

theorem backpressure_admission_spec_witness :
    BackpressureMiddleware.dispatch 2 ⟨"/predict"⟩
        (fun _ s => (⟨200, .jsonHealth⟩, s))
        ⟨some ⟨4, 10, [⟨[(1:ℚ)], .pending, 0⟩, ⟨[(2:ℚ)], .pending, 0⟩], true⟩,
         ⟨[], [], 2, 0, 0⟩⟩ =
      (⟨503, .jsonDetail "Server overloaded"⟩,
       ⟨some ⟨4, 10, [⟨[(1:ℚ)], .pending, 0⟩, ⟨[(2:ℚ)], .pending, 0⟩], true⟩,
        ⟨[], [], 2, 1, 0⟩⟩) := by
  have h := (backpressure_admission_spec 2 ⟨"/predict"⟩
    (fun _ s => (⟨200, .jsonHealth⟩, s))
    ⟨some ⟨4, 10, [⟨[(1:ℚ)], .pending, 0⟩, ⟨[(2:ℚ)], .pending, 0⟩], true⟩,
     ⟨[], [], 2, 0, 0⟩⟩
    ⟨4, 10, [⟨[(1:ℚ)], .pending, 0⟩, ⟨[(2:ℚ)], .pending, 0⟩], true⟩ rfl).1
    rfl (Nat.le_refl 2)
  exact h.1

/-- C4 counterexample: the claim says an offer fails whenever occupancy
has reached Q, but with Q = 0 the asyncio queue is unbounded and an
offer at occupancy = Q = 0 is accepted. -/
theorem enqueue_at_zero_capacity_accepts :
    ((⟨8, 0, [], true⟩ : BatcherState).enqueue ⟨[], [], 0, 0, 0⟩
        [(1:ℚ)] 0).1 = .accepted ∧
    (⟨8, 0, [], true⟩ : BatcherState).queue.length =
      (⟨8, 0, [], true⟩ : BatcherState).queueMaxSize := by
  exact ⟨by simp [BatcherState.enqueue, queueFull], rfl⟩

/-- C4 (amended): for a bounded queue, Q ≥ 1, an offer succeeds exactly
when occupancy < Q, appending the item and setting the depth gauge to
the new occupancy; at occupancy = Q it fails, increments
QUEUE_REJECTIONS, leaves the queue unchanged, and the raised
OverloadedError is surfaced by the /predict handler as a 503 response
with detail "Server overloaded". (With Q = 0 the asyncio queue is
unbounded and the offer never fails.) -/
theorem enqueue_bounded_queue_spec
    (b : BatcherState) (m : Metrics) (features : List ℚ) (now : ℚ)
    (hrun : b.running = true) (hQ : 1 ≤ b.queueMaxSize) :
    (b.queue.length < b.queueMaxSize →
      b.enqueue m features now =
        (.accepted,
         { b with queue := b.queue ++ [(⟨features, .pending, now⟩ : BatchItem)] },
         { m with
            queueDepth :=
              (b.queue ++ [(⟨features, .pending, now⟩ : BatchItem)]).length })) ∧
    (b.queue.length = b.queueMaxSize →
      b.enqueue m features now =
        (.overloaded, b,
         { m with queueRejections := m.queueRejections + 1 }) ∧
      predictResponse (.error (.overloadedError "Inference queue is full")) =
        ⟨503, .jsonDetail "Server overloaded"⟩) := by
  constructor
  · intro hlt
    have hfull : queueFull b.queueMaxSize b.queue.length = false := by
      simp only [queueFull, decide_eq_false_iff_not]
      omega
    simp [BatcherState.enqueue, hrun, hfull]
  · intro heq
    have hfull : queueFull b.queueMaxSize b.queue.length = true := by
      simp only [queueFull, decide_eq_true_eq]
      omega
    exact ⟨by simp [BatcherState.enqueue, hrun, hfull], rfl⟩

theorem enqueue_bounded_queue_spec_witness :
    (⟨4, 1, [], true⟩ : BatcherState).enqueue ⟨[], [], 0, 0, 0⟩ [(2:ℚ)] 0 =
      (.accepted, ⟨4, 1, [⟨[(2:ℚ)], .pending, 0⟩], true⟩,
       ⟨[], [], 1, 0, 0⟩) := by
  have h := (enqueue_bounded_queue_spec ⟨4, 1, [], true⟩ ⟨[], [], 0, 0, 0⟩
    [(2:ℚ)] 0 rfl (by norm_num)).1 (by norm_num)
  exact h

/-- C9 counterexample: the claimed mechanism "with Q = 0 every offer
fails with QueueFull" is false: at Q = 0 the asyncio queue is unbounded,
and an offer is accepted even at occupancy 1 > Q. -/
theorem zero_capacity_offer_not_queue_full :
    ((⟨8, 0, [⟨[(3:ℚ)], .pending, 0⟩], true⟩ : BatcherState).enqueue
        ⟨[], [], 1, 0, 0⟩ [(4:ℚ)] 1).1 = .accepted := by
  simp [BatcherState.enqueue, queueFull]

/-- C9 (amended): with H = 0 the admission middleware rejects every
/predict request with 503 (with a batcher installed); with Q = 0 the
constraint H ≤ Q forces H = 0 and every /predict request is likewise
rejected at admission, but offers to the Q = 0 queue never fail with
QueueFull because the asyncio queue is then unbounded. -/
theorem zero_config_every_predict_rejected
    (H : Nat) (req : Request) (hp : req.path = "/predict")
    (callNext : Request → Sys → Response × Sys) (s : Sys)
    (b : BatcherState) (hb : s.batcher = some b) :
    (H = 0 →
      BackpressureMiddleware.dispatch H req callNext s =
        (⟨503, .jsonDetail "Server overloaded"⟩,
         { s with metrics :=
            { s.metrics with
                queueRejections := s.metrics.queueRejections + 1 } })) ∧
    (b.queueMaxSize = 0 → H ≤ b.queueMaxSize →
      BackpressureMiddleware.dispatch H req callNext s =
        (⟨503, .jsonDetail "Server overloaded"⟩,
         { s with metrics :=
            { s.metrics with
                queueRejections := s.metrics.queueRejections + 1 } })) ∧
    (∀ (m : Metrics) (features : List ℚ) (now : ℚ),
      b.queueMaxSize = 0 → b.running = true →
      (b.enqueue m features now).1 = .accepted) := by
  refine ⟨fun hH => ?_, fun hQ hHQ => ?_, fun m features now hQ hrun => ?_⟩
  · subst hH
    simp [BackpressureMiddleware.dispatch, hp, hb]
  · have hH : H = 0 := by omega
    subst hH
    simp [BackpressureMiddleware.dispatch, hp, hb]
  · have hfull : queueFull b.queueMaxSize b.queue.length = false := by
      simp only [queueFull, decide_eq_false_iff_not]
      omega
    simp [BatcherState.enqueue, hrun, hfull]

theorem zero_config_every_predict_rejected_witness :
    BackpressureMiddleware.dispatch 0 ⟨"/predict"⟩
        (fun _ s => (⟨200, .jsonHealth⟩, s))
        ⟨some ⟨4, 0, [], true⟩, ⟨[], [], 0, 0, 0⟩⟩ =
      (⟨503, .jsonDetail "Server overloaded"⟩,
       ⟨some ⟨4, 0, [], true⟩, ⟨[], [], 0, 1, 0⟩⟩) ∧
    ((⟨4, 0, [], true⟩ : BatcherState).enqueue ⟨[], [], 0, 0, 0⟩
        [(1:ℚ), 2] 0).1 = .accepted := by
  have h := zero_config_every_predict_rejected 0 ⟨"/predict"⟩ rfl
    (fun _ s => (⟨200, .jsonHealth⟩, s))
    ⟨some ⟨4, 0, [], true⟩, ⟨[], [], 0, 0, 0⟩⟩ ⟨4, 0, [], true⟩ rfl
  exact ⟨h.1 rfl, h.2.2 ⟨[], [], 0, 0, 0⟩ [(1:ℚ), 2] 0 rfl rfl⟩

/-- C5: If the predictor raises during a batch dispatch, every item of
the batch whose handle is not yet settled receives that same exception
and no item receives a score; an item that was pending ends with the
exception on its handle, and awaiting such a handle surfaces the error
as a 500 response from the /predict handler (the predictor never raises
OverloadedError, the only exception mapped to 503). -/
theorem execute_batch_failure_uniform
    (predict : List (List ℚ) → Except PyErr (List ℚ)) (lat : ℚ)
    (batch : List BatchItem) (b : BatcherState) (m : Metrics) (e : PyErr)
    (hexc : predict (batch.map (·.features)) = .error e)
    (hnotov : ∀ msg, e ≠ .overloadedError msg)
    (i : Nat) (hi : i < batch.length) (d : BatchItem) :
    (executeBatch predict lat batch b m).1.getD i d =
      (if (batch.getD i d).future.done then batch.getD i d
       else { batch.getD i d with future := .error e }) ∧
    ((batch.getD i d).future = .pending →
      awaitSettled ((executeBatch predict lat batch b m).1.getD i d).future =
        some (.error e) ∧
      predictResponse (.error e) = ⟨500, .internalError⟩) := by
  have hne : batch ≠ [] := by
    intro hb'; rw [hb'] at hi; simp at hi
  have hrw : (executeBatch predict lat batch b m).1 = setException e batch := by
    simp [executeBatch, List.isEmpty_iff, hne, hexc]
  constructor
  · rw [hrw, setException_getD, if_pos hi]
  · intro hpend
    have hdone : (batch.getD i d).future.done = false := by
      rw [hpend]; rfl
    constructor
    · rw [hrw, setException_getD, if_pos hi,
        if_neg (by rw [hdone]; simp)]
      rfl
    · cases e with
      | overloadedError msg => exact absurd rfl (hnotov msg)
      | valueError msg => rfl
      | modelError msg => rfl
      | runtimeError msg => rfl
      | cancelledError => rfl

theorem execute_batch_failure_uniform_witness :
    (executeBatch (fun _ => .error (.modelError "boom")) 1
        [⟨[(1:ℚ)], .pending, 0⟩, ⟨[(2:ℚ)], .result 7, 0⟩]
        ⟨4, 10, [], true⟩ ⟨[], [], 0, 0, 0⟩).1.getD 0 ⟨[], .pending, 0⟩ =
      ⟨[(1:ℚ)], .error (.modelError "boom"), 0⟩ ∧
    predictResponse (.error (.modelError "boom")) = ⟨500, .internalError⟩ := by
  have h := execute_batch_failure_uniform
    (fun _ => .error (.modelError "boom")) 1
    [⟨[(1:ℚ)], .pending, 0⟩, ⟨[(2:ℚ)], .result 7, 0⟩]
    ⟨4, 10, [], true⟩ ⟨[], [], 0, 0, 0⟩ (.modelError "boom") rfl
    (fun msg hmsg => by simp at hmsg) 0 (by norm_num) ⟨[], .pending, 0⟩
  refine ⟨?_, (h.2 rfl).2⟩
  rw [h.1]
  simp [FutureState.done]

/-- C6 (code bug): stopping the batcher while the assembler task is
suspended awaiting the predictor abandons the in-flight batch without
settling it: asyncio.CancelledError derives from BaseException, so the
except-Exception clause of _execute_batch does not catch it; it
propagates to the except-CancelledError clause of _batch_loop and the
task returns without settling the batch. The flush then drains only the
queue, so the in-flight item below keeps a pending handle forever,
contradicting the claim that every enqueued handle is settled. -/
theorem stop_mid_dispatch_leaks_pending_handle :
    ((⟨8, 10, [], true⟩ : BatcherState).stop ⟨[], [], 1, 0, 0⟩
        (.predictorWait [⟨[(1:ℚ)], .pending, 0⟩])).2.2.1 =
      [⟨[(1:ℚ)], .pending, 0⟩] ∧
    (⟨[(1:ℚ)], .pending, 0⟩ : BatchItem).future.done = false ∧
    ((⟨8, 10, [], true⟩ : BatcherState).stop ⟨[], [], 1, 0, 0⟩
        (.predictorWait [⟨[(1:ℚ)], .pending, 0⟩])).2.2.2 = [] := by
  refine ⟨?_, rfl, ?_⟩ <;>
    simp [BatcherState.stop, flushQueueWithCancellation, batchLoopCancel]

/-- C7: When the downstream work exceeds the wall-clock budget D, the
deadline middleware increments REQUEST_TIMEOUTS and responds 504 with
detail "Request timed out" without using the downstream response;
cancelling the abandoned caller turns its pending handle into a
cancelled (hence done) handle, and a later batch dispatch leaves such a
handle untouched, settling it without error. -/
theorem deadline_timeout_spec
    (D dur : ℚ) (downstream : Sys → Response × Sys) (s : Sys)
    (hover : D < dur)
    (predict : List (List ℚ) → Except PyErr (List ℚ)) (lat : ℚ)
    (batch : List BatchItem) (b : BatcherState) (m : Metrics)
    (i : Nat) (hi : i < batch.length) (d : BatchItem)
    (hcanc : (batch.getD i d).future = .cancelled) :
    TimeoutMiddleware.dispatch D downstream dur s =
      (⟨504, .jsonDetail "Request timed out"⟩,
       { s with metrics :=
          { s.metrics with
              requestTimeouts := s.metrics.requestTimeouts + 1 } }) ∧
    ((executeBatch predict lat batch b m).1.getD i d).future = .cancelled ∧
    (∀ item : BatchItem, item.future = .pending →
      (abandonItem item).future = .cancelled) := by
  have hdone : (batch.getD i d).future.done = true := by
    rw [hcanc]; rfl
  have hne : batch ≠ [] := by
    intro hb'; rw [hb'] at hi; simp at hi
  refine ⟨?_, ?_, ?_⟩
  · simp [TimeoutMiddleware.dispatch, not_le.mpr hover]
  · cases hp : predict (batch.map (·.features)) with
    | error e =>
      have hrw : (executeBatch predict lat batch b m).1 =
          setException e batch := by
        simp [executeBatch, List.isEmpty_iff, hne, hp]
      rw [hrw, setException_getD_done e batch i d hdone, hcanc]
    | ok preds =>
      have hrw : (executeBatch predict lat batch b m).1 =
          setResults preds batch := by
        simp [executeBatch, List.isEmpty_iff, hne, hp]
      rw [hrw, setResults_getD_done preds batch i d hdone, hcanc]
  · intro item hpend
    simp [abandonItem, hpend, FutureState.done]

theorem deadline_timeout_spec_witness :
    TimeoutMiddleware.dispatch 1 (fun s => (⟨200, .jsonHealth⟩, s)) 2
        ⟨none, ⟨[], [], 0, 0, 0⟩⟩ =
      (⟨504, .jsonDetail "Request timed out"⟩,
       ⟨none, ⟨[], [], 0, 0, 1⟩⟩) ∧
    ((executeBatch (fun _ => .ok [(1:ℚ)/2]) 0 [⟨[(1:ℚ)], .cancelled, 0⟩]
        ⟨4, 10, [], true⟩ ⟨[], [], 0, 0, 0⟩).1.getD 0
      ⟨[], .pending, 0⟩).future = .cancelled := by
  have h := deadline_timeout_spec 1 2 (fun s => (⟨200, .jsonHealth⟩, s))
    ⟨none, ⟨[], [], 0, 0, 0⟩⟩ (by norm_num) (fun _ => .ok [(1:ℚ)/2]) 0
    [⟨[(1:ℚ)], .cancelled, 0⟩] ⟨4, 10, [], true⟩ ⟨[], [], 0, 0, 0⟩ 0
    (by norm_num) ⟨[], .pending, 0⟩ rfl
  exact ⟨h.1, h.2.1⟩

/-- C8: The predictor adapter fails with the shape ValueError on every
input whose rank is not 2, and on every two-dimensional input with at
least one row it returns, provided the model fulfils the predict_proba
contract (one row of two class probabilities in the unit interval per
input row), a score vector whose length equals the number of rows with
every score in the unit interval. -/
theorem predictor_predict_spec
    (model : NDArray → NDArray) (a : NDArray) :
    (a.ndim ≠ 2 →
      Predictor.predict model a =
        .error (.valueError "Inputs must be shaped (batch, features)")) ∧
    (∀ n dcols : Nat, a.shape = [n, dcols] → 1 ≤ n →
      (model a).shape = [n, 2] →
      (model a).data.length = 2 * n →
      (∀ x ∈ (model a).data, 0 ≤ x ∧ x ≤ 1) →
      ∃ scores, Predictor.predict model a = .ok scores ∧
        scores.length = n ∧ ∀ sc ∈ scores, 0 ≤ sc ∧ sc ≤ 1) := by
  constructor
  · intro hnd
    simp [Predictor.predict, hnd]
  · intro n dcols hshape hn hms hml hbounds
    have hnd : a.ndim = 2 := by simp [NDArray.ndim, hshape]
    have hcol : column1 (model a) =
        (List.range n).map
          (fun i => (model a).data.getD (i * 2 + 1) 0) := by
      simp [column1, hms]
    refine ⟨column1 (model a), by simp [Predictor.predict, hnd], ?_, ?_⟩
    · simp [hcol]
    · intro sc hsc
      rw [hcol] at hsc
      simp only [List.mem_map, List.mem_range] at hsc
      obtain ⟨i, hilt, hieq⟩ := hsc
      have hidx : i * 2 + 1 < (model a).data.length := by omega
      rw [← hieq]
      have hval : (model a).data.getD (i * 2 + 1) 0 ∈ (model a).data := by
        rw [List.getD_eq_getElem _ _ hidx]
        exact List.getElem_mem hidx
      exact hbounds _ hval

theorem predictor_predict_spec_witness :
    Predictor.predict (fun _ => ⟨[1, 2], [(1:ℚ)/3, 2/3]⟩) ⟨[3], [0, 0, 0]⟩ =
      .error (.valueError "Inputs must be shaped (batch, features)") ∧
    ∃ scores,
      Predictor.predict (fun _ => ⟨[1, 2], [(1:ℚ)/3, 2/3]⟩)
          ⟨[1, 3], [0, 0, 0]⟩ = .ok scores ∧
      scores.length = 1 ∧ ∀ sc ∈ scores, 0 ≤ sc ∧ sc ≤ 1 := by
  constructor
  · exact (predictor_predict_spec (fun _ => ⟨[1, 2], [(1:ℚ)/3, 2/3]⟩)
      ⟨[3], [0, 0, 0]⟩).1 (by simp [NDArray.ndim])
  · exact (predictor_predict_spec (fun _ => ⟨[1, 2], [(1:ℚ)/3, 2/3]⟩)
      ⟨[1, 3], [0, 0, 0]⟩).2 1 3 rfl (by norm_num) rfl rfl
      (by
        intro x hx
        simp at hx
        rcases hx with h | h <;> rw [h] <;> norm_num)

/-- C10: Calling enqueue on a batcher that is not running (never
started, or stopped: stop always leaves the running flag cleared)
raises the RuntimeError before any state change: the queue, the depth
gauge and the rejection counter are all returned unchanged and no item
or handle is created. -/
theorem enqueue_before_start_raises
    (b : BatcherState) (m : Metrics) (features : List ℚ) (now : ℚ)
    (h : b.running = false) :
    b.enqueue m features now = (.notStarted, b, m) ∧
    (∀ (b2 : BatcherState) (m2 : Metrics) (sp : SuspensionPoint),
      ((b2.stop m2 sp).1).running = false) := by
  constructor
  · simp [BatcherState.enqueue, h]
  · intro b2 m2 sp
    by_cases h2 : b2.running
    · simp [BatcherState.stop, h2, flushQueueWithCancellation]
    · simp only [Bool.not_eq_true] at h2
      simp [BatcherState.stop, h2]

theorem enqueue_before_start_raises_witness :
    (⟨4, 10, [], false⟩ : BatcherState).enqueue ⟨[], [], 0, 0, 0⟩
        [(1:ℚ)] 0 =
      (.notStarted, ⟨4, 10, [], false⟩, ⟨[], [], 0, 0, 0⟩) :=
  (enqueue_before_start_raises ⟨4, 10, [], false⟩ ⟨[], [], 0, 0, 0⟩
    [(1:ℚ)] 0 rfl).1

end MLInference
